import Mathlib

/-!
Verification of the motion-assessment session core of the repository
(`backend/routes/utils_dtw.py` and `backend/routes/websockets.py`).

The embedding models feature values as real numbers.  Machine integers do not
occur in the scored pipeline (all arithmetic is floating point in the source;
it is modelled over `ℝ`/`ℚ`-free exact reals, with the literal `1e-6` modelled
as `1/1000000`).  Fallible Python code (raising paths) is modelled with
`Except`; `None`-returning extraction is modelled with `Option`.
-/

namespace SSLPD

/-- A feature vector (one row of a numpy array), as in `utils_dtw.py`. -/
abbrev Vec := List ℝ

/-- Componentwise sum of two vectors (numpy `+` on same-shape arrays). -/
noncomputable def vadd (u v : Vec) : Vec := List.zipWith (· + ·) u v

/-- Componentwise difference of two vectors (numpy `-` on same-shape arrays). -/
noncomputable def vsub (u v : Vec) : Vec := List.zipWith (· - ·) u v

/-- `np.linalg.norm`: the Euclidean norm of a vector. -/
noncomputable def enorm (v : Vec) : ℝ := Real.sqrt ((v.map (fun x => x ^ 2)).sum)

/-- The literal `1e-6` used throughout `utils_dtw.py` (exact-arithmetic model). -/
noncomputable def epsFloat : ℝ := 1 / 1000000

/-- One landmark point: the `{"x": .., "y": .., "z": ..}` dicts produced by
`MPExtractor.process` in `websockets.py` (the pose `visibility` field is never
read by the feature extractor and is omitted). -/
structure Pt where
  x : ℝ
  y : ℝ
  z : ℝ

/-- One per-frame keypoint record (the `kp` dict): `kp["hands"]` is a list of
hands, each reduced to its landmark list (the `handedness` label is never read
by `extract_features`), and `kp["pose"]` is the pose landmark list. -/
structure Kp where
  hands : List (List Pt)
  pose : List Pt

/-- `_hands_features` (utils_dtw.py lines 87-105): origin = wrist (index 0),
scale = distance wrist → middle MCP (index 9) plus `1e-6`, output = flattened
`(pts - ref) / scale` over (x, y). -/
noncomputable def hands_features (kp : Kp) : Option Vec :=
  match kp.hands with
  | [] => none
  | lm :: _ =>
    if lm.length < 21 then none
    else
      let pts : List Vec := lm.map (fun p => [p.x, p.y])
      let ref : Vec := pts.headI
      let scale : ℝ := enorm (vsub (pts.getD 9 []) ref) + epsFloat
      some ((pts.map (fun q => (vsub q ref).map (fun c => c / scale))).flatten)

/-- The per-point row of the numpy array built by `_pose_features`:
`[p["x"], p["y"], p["z"]]` when `use_z` else `[p["x"], p["y"]]`. -/
def ptVec (useZ : Bool) (p : Pt) : Vec :=
  if useZ then [p.x, p.y, p.z] else [p.x, p.y]

/-- The common body of the two `use_z` branches of `_pose_features` on the
stacked rows `pts`: origin = midpoint of rows 23/24, scale = ‖row11 − row12‖
plus `1e-6`, output = flattened `(pts - mid_hips) / shoulder_w`. -/
noncomputable def poseBody (pts : List Vec) : Vec :=
  let midHips : Vec := (vadd (pts.getD 23 []) (pts.getD 24 [])).map (fun c => c / 2)
  let shoulderW : ℝ := enorm (vsub (pts.getD 11 []) (pts.getD 12 [])) + epsFloat
  (pts.map (fun q => (vsub q midHips).map (fun c => c / shoulderW))).flatten

/-- `_pose_features` (utils_dtw.py lines 107-122): requires ≥ 33 pose points;
the two `use_z` branches of the source differ only in the per-point row
`ptVec`, the rest is `poseBody`. -/
noncomputable def pose_features (kp : Kp) (useZ : Bool) : Option Vec :=
  if kp.pose.length < 33 then none
  else some (poseBody (kp.pose.map (ptVec useZ)))

/-- The index set of `_select_finger_features` (utils_dtw.py lines 124-134). -/
def finger_indices : List ℕ := [3, 4, 7, 8]

/-- `_select_finger_features`: picks `kp_array[idx*2]` and `kp_array[idx*2+1]`
for each finger index.  The only call site passes the 42-dim hands vector, so
the indices (≤ 17) are always in range; `getD`'s default is never used there. -/
def select_finger_features (arr : Vec) : Vec :=
  (finger_indices.map (fun idx => [arr.getD (idx * 2) 0, arr.getD (idx * 2 + 1) 0])).flatten

/-- `extract_features` (utils_dtw.py lines 136-145).  For `"finger"` the source
calls `_select_finger_features(_hands_features(kp))` without a `None` check:
when `_hands_features` returns `None`, `kp_array[idx * 2]` raises `TypeError`
(`NoneType` is not subscriptable); the `.error` branch models that raise. -/
noncomputable def extract_features (model : String) (kp : Kp) (useZ : Bool) :
    Except String (Option Vec) :=
  if model = "hands" then .ok (hands_features kp)
  else if model = "pose" then .ok (pose_features kp useZ)
  else if model = "finger" then
    match hands_features kp with
    | some arr => .ok (some (select_finger_features arr))
    | none => .error "TypeError: NoneType object is not subscriptable"
  else .ok none

/-! ### Python string primitives

`normalize_test_name` and `save_dtw_npz` use Python `str` methods
(`strip`, `lower`, `replace`, the `in` substring test).  They are modelled
here over `List Char` so every use is kernel-computable. -/

/-- Python `pattern-matches-at-front`: helper for `replace` and `in`. -/
def matchesAt : List Char → List Char → Bool
  | [], _ => true
  | _ :: _, [] => false
  | p :: ps, c :: cs => p == c && matchesAt ps cs

/-- Python `pat in s` on the underlying character lists. -/
def hasSub (pat : List Char) : List Char → Bool
  | [] => pat.isEmpty
  | c :: rest => matchesAt pat (c :: rest) || hasSub pat rest

/-- Python `pat in s` (substring containment). -/
def pyContains (s pat : String) : Bool := hasSub pat.data s.data

/-- Fuel-driven worker for Python `str.replace` (left-to-right,
non-overlapping, replace all).  The fuel is the string length; each step
consumes at least one character for the nonempty patterns used here. -/
def replGo : ℕ → List Char → List Char → List Char → List Char
  | 0, _, _, s => s
  | n + 1, pat, rep, s =>
    match s with
    | [] => []
    | c :: rest =>
      if matchesAt pat (c :: rest) then rep ++ replGo n pat rep ((c :: rest).drop pat.length)
      else c :: replGo n pat rep rest

/-- Python `s.replace(pat, rep)` (replace every occurrence). -/
def pyReplace (s pat rep : String) : String := ⟨replGo s.data.length pat.data rep.data s.data⟩

/-- Python `s.strip()` (drop surrounding whitespace). -/
def pyStrip (s : String) : String :=
  ⟨((s.data.dropWhile Char.isWhitespace).reverse.dropWhile Char.isWhitespace).reverse⟩

/-- Python `s.lower()` (ASCII lowering suffices for the inputs involved). -/
def pyLower (s : String) : String := ⟨s.data.map Char.toLower⟩

/-- `ALLOWED_TESTS` (utils_dtw.py line 24). -/
def ALLOWED_TESTS : List String := ["stand-and-sit", "finger-tapping", "fist-open-close"]

/-- `_TEST_NORMALIZATION_ALIASES` (utils_dtw.py lines 26-45). -/
def TEST_NORMALIZATION_ALIASES : List (String × String) :=
  [("stand-and-sit", "stand-and-sit"),
   ("stand-sit", "stand-and-sit"),
   ("stand_to_sit", "stand-and-sit"),
   ("stand-and-sit-assessment", "stand-and-sit"),
   ("stand-and-sit-test", "stand-and-sit"),
   ("stand-&-sit", "stand-and-sit"),
   ("stand-&-sit-assessment", "stand-and-sit"),
   ("stand-and-sit-evaluation", "stand-and-sit"),
   ("finger-tapping", "finger-tapping"),
   ("finger_tapping", "finger-tapping"),
   ("finger-taping", "finger-tapping"),
   ("finger-tapping-test", "finger-tapping"),
   ("finger-tapping-assessment", "finger-tapping"),
   ("finger-tap", "finger-tapping"),
   ("fist-open-close", "fist-open-close"),
   ("fist_open_close", "fist-open-close"),
   ("fist-open-close-test", "fist-open-close"),
   ("fist-open-close-assessment", "fist-open-close")]

/-- The `while "--" in t` loop of `normalize_test_name`, fuel = string length
(each replacement strictly shortens the string). -/
def collapseGo : ℕ → String → String
  | 0, t => t
  | n + 1, t => if pyContains t "--" then collapseGo n (pyReplace t "--" "-") else t

/-- `normalize_test_name` (utils_dtw.py lines 47-55); the `None` argument case
collapses to `""` before any transformation and is modelled by `""`. -/
def normalize_test_name (t : String) : String :=
  let t1 := pyLower (pyStrip t)
  if t1 = "" then ""
  else
    let t2 := pyReplace (pyReplace (pyReplace t1 " " "-") "_" "-") "&" "and"
    let t3 := collapseGo t2.length t2
    ((TEST_NORMALIZATION_ALIASES.lookup t3).getD t3)

/-- The forced canonical folder name of `save_dtw_npz` (utils_dtw.py lines
196-199): normalize, and if the result is not an allowed test, pick by raw
substring: `"sit"` → stand-and-sit, else `"finger"` → finger-tapping, else
fist-open-close. -/
def save_dtw_npz_canonical (test_name : String) : String :=
  let canonical := normalize_test_name test_name
  if canonical ∈ ALLOWED_TESTS then canonical
  else if pyContains test_name "sit" then "stand-and-sit"
  else if pyContains test_name "finger" then "finger-tapping"
  else "fist-open-close"

/-! ### DTW engine and the end-of-session scoring -/

/-- Modelled from the spec: `tslearn.metrics.dtw_path` is a library
collaborator (not part of this repository); §4.4 of the spec pins its
contract — monotone warping path from `(0,0)` to `(|A|−1,|B|−1)` with steps
`{(+1,0),(0,+1),(+1,+1)}`, minimising the accumulated pointwise distance.
`dtwD cost i j` is that optimal accumulated cost up to cell `(i, j)`. -/
noncomputable def dtwD (cost : ℕ → ℕ → ℝ) : ℕ → ℕ → ℝ
  | 0, 0 => cost 0 0
  | 0, j + 1 => cost 0 (j + 1) + dtwD cost 0 j
  | i + 1, 0 => cost (i + 1) 0 + dtwD cost i 0
  | i + 1, j + 1 =>
    cost (i + 1) (j + 1) +
      min (dtwD cost i (j + 1)) (min (dtwD cost (i + 1) j) (dtwD cost i j))

/-- DTW total over two sequences of vectors (distance = Euclidean norm). -/
noncomputable def dtwV (X Y : List Vec) : ℝ :=
  dtwD (fun i j => enorm (vsub (X.getD i []) (Y.getD j []))) (X.length - 1) (Y.length - 1)

/-- DTW total over two scalar series (distance = absolute difference). -/
noncomputable def dtw1 (A B : List ℝ) : ℝ :=
  dtwD (fun i j => |A.getD i 0 - B.getD j 0|) (A.length - 1) (B.length - 1)

/-- `calculate_amplitude` (utils_dtw.py lines 148-150): per-frame norm. -/
noncomputable def calculate_amplitude (X : List Vec) : List ℝ := X.map enorm

/-- `calculate_speed` (utils_dtw.py lines 152-155):
`np.diff(X, axis=0, prepend=X[0:1])` pairs each row with its predecessor (the
first row with itself), then takes norms; on the empty input the result is
empty. -/
noncomputable def calculate_speed (X : List Vec) : List ℝ :=
  match X with
  | [] => []
  | x0 :: _ => (X.zip (x0 :: X)).map (fun cp => enorm (vsub cp.1 cp.2))

/-- `normalize_dtw` (utils_dtw.py lines 169-172). -/
noncomputable def normalize_dtw (dtw L_avg R_data eps : ℝ) : ℝ :=
  1 / (1 + dtw / max (L_avg * max R_data eps) eps)

/-- `max` of a nonempty float list (np `.max()`); 0 on the empty list, which
the source never reaches on the scored paths. -/
noncomputable def listMax : List ℝ → ℝ
  | [] => 0
  | x :: xs => xs.foldl max x

/-- `min` of a nonempty float list (np `.min()`); 0 on the empty list. -/
noncomputable def listMin : List ℝ → ℝ
  | [] => 0
  | x :: xs => xs.foldl min x

/-- The scalar block of `EndOnlyDTW.finalize_and_save` (utils_dtw.py lines
308-369) on the already-stacked live matrix `X` and reference `Y`, for the
`sakoe_radius = None` configuration that `websockets.py` always constructs
(`EndOnlyDTW(test_name, model, test_id)`).  Field names follow the `meta`
dict saved by the source.  Note `S_pos = pos_total`, `S_amp = amp_total`,
`S_spd = s_total` (or `1.0` in the degenerate speed branch): the source never
calls `normalize_dtw`. -/
structure Scores where
  pos_dtw : ℝ
  amp_dtw : ℝ
  spd_dtw : ℝ
  R_pos : ℝ
  R_amp : ℝ
  R_spd : ℝ
  L_pos : ℝ
  L_amp : ℝ
  L_spd : ℝ
  similarity_pos : ℝ
  similarity_amp : ℝ
  similarity_spd : ℝ
  similarity_overall : ℝ

/-- See `Scores`. -/
noncomputable def finalizeScores (X Y : List Vec) : Scores :=
  let AX := calculate_amplitude X
  let AY := calculate_amplitude Y
  let amp_total := dtw1 AX AY
  let R_amp := listMax AY - listMin AY
  let L_amp := (1 / 2 : ℝ) * ((AX.length : ℝ) + (AY.length : ℝ))
  let S_amp := amp_total
  let SX := calculate_speed X
  let SY := calculate_speed Y
  let spdLive := 0 < SX.length ∧ 0 < SY.length
  let s_total := if spdLive then dtw1 SX SY else 0
  let R_spd := if spdLive then listMax SY - listMin SY else 0
  let L_spd :=
    if spdLive then (1 / 2 : ℝ) * ((SX.length : ℝ) + (SY.length : ℝ))
    else ((max (max SX.length SY.length) 1 : ℕ) : ℝ)
  let S_spd := if spdLive then s_total else 1
  let pos_total := dtwV X Y
  let R_pos := listMax ((Y.transpose).map (fun col => listMax col - listMin col))
  let L_pos := (1 / 2 : ℝ) * ((X.length : ℝ) + (Y.length : ℝ))
  let S_pos := pos_total
  let S_overall := (S_pos + S_amp + S_spd) / 3
  { pos_dtw := pos_total, amp_dtw := amp_total, spd_dtw := s_total,
    R_pos := R_pos, R_amp := R_amp, R_spd := R_spd,
    L_pos := L_pos, L_amp := L_amp, L_spd := L_spd,
    similarity_pos := S_pos, similarity_amp := S_amp, similarity_spd := S_spd,
    similarity_overall := S_overall }

/-! ### Basic vector and DTW lemmas -/

theorem vsub_self (v : Vec) : vsub v v = List.replicate v.length 0 := by
  induction v with
  | nil => rfl
  | cons a t ih =>
    simp [vsub, List.zipWith] at ih ⊢
    simp [List.replicate, ih]

theorem enorm_nonneg (v : Vec) : 0 ≤ enorm v := Real.sqrt_nonneg _

theorem enorm_replicate_zero (n : ℕ) : enorm (List.replicate n 0) = 0 := by
  have h : ((List.replicate n (0 : ℝ)).map (fun x => x ^ 2)).sum = 0 := by
    induction n with
    | zero => simp
    | succ k ih => simp [List.replicate, ih]
  simp [enorm, h]

theorem enorm_vsub_self (v : Vec) : enorm (vsub v v) = 0 := by
  rw [vsub_self, enorm_replicate_zero]

theorem dtwD_nonneg (cost : ℕ → ℕ → ℝ) (hc : ∀ i j, 0 ≤ cost i j) :
    ∀ i j, 0 ≤ dtwD cost i j := by
  intro i
  induction i with
  | zero =>
    intro j
    induction j with
    | zero => simpa [dtwD] using hc 0 0
    | succ k ihj => simp only [dtwD]; exact add_nonneg (hc 0 (k + 1)) ihj
  | succ n ih =>
    intro j
    induction j with
    | zero => simp only [dtwD]; exact add_nonneg (hc (n + 1) 0) (ih 0)
    | succ k ihj =>
      simp only [dtwD]
      refine add_nonneg (hc (n + 1) (k + 1)) ?_
      exact le_min (ih (k + 1)) (le_min ihj (ih k))

theorem dtwD_self_zero (cost : ℕ → ℕ → ℝ) (hc : ∀ i j, 0 ≤ cost i j)
    (hd : ∀ k, cost k k = 0) : ∀ n, dtwD cost n n = 0 := by
  intro n
  induction n with
  | zero => simpa [dtwD] using hd 0
  | succ k ih =>
    simp only [dtwD, hd (k + 1), zero_add]
    apply le_antisymm
    · calc min (dtwD cost k (k + 1)) (min (dtwD cost (k + 1) k) (dtwD cost k k))
          ≤ min (dtwD cost (k + 1) k) (dtwD cost k k) := min_le_right _ _
        _ ≤ dtwD cost k k := min_le_right _ _
        _ = 0 := ih
    · exact le_min (dtwD_nonneg cost hc _ _)
        (le_min (dtwD_nonneg cost hc _ _) (dtwD_nonneg cost hc _ _))

theorem dtwV_self (X : List Vec) : dtwV X X = 0 :=
  dtwD_self_zero (fun i j => enorm (vsub (X.getD i []) (X.getD j [])))
    (fun _ _ => enorm_nonneg _) (fun _ => enorm_vsub_self _) (X.length - 1)

theorem dtw1_self (A : List ℝ) : dtw1 A A = 0 :=
  dtwD_self_zero (fun i j => |A.getD i 0 - A.getD j 0|)
    (fun _ _ => abs_nonneg _) (fun _ => by simp) (A.length - 1)

/-! ### C1: the "similarity" scalars of a finalized session -/

/-- A live buffer that exactly matches the reference `[[0], [4]]`: a concrete
finalization in which every channel DTW distance is zero. -/
noncomputable def liveTwo : List Vec := [[0], [4]]

/-- C1: the claim states that each per-channel similarity is
`1 / (1 + distance_c / max(L_c * max(R_c, eps), eps))` (the formula of
`normalize_dtw`) and hence lies in `[0, 1]`.  The code never calls
`normalize_dtw`: `finalize_and_save` stores the raw DTW totals in the
similarity fields (`S_pos = pos_total`, `S_amp = amp_total`).  On the
self-match finalization `liveTwo` vs `liveTwo` the code yields
`similarity_pos = 0` while the claimed formula yields `1`. -/
theorem C1_similarity_is_raw_distance :
    (∀ X Y : List Vec,
        (finalizeScores X Y).similarity_pos = (finalizeScores X Y).pos_dtw ∧
        (finalizeScores X Y).similarity_amp = (finalizeScores X Y).amp_dtw) ∧
    (finalizeScores liveTwo liveTwo).similarity_pos = 0 ∧
    (finalizeScores liveTwo liveTwo).L_pos = 2 ∧
    (finalizeScores liveTwo liveTwo).R_pos = 4 ∧
    normalize_dtw (finalizeScores liveTwo liveTwo).pos_dtw
      (finalizeScores liveTwo liveTwo).L_pos
      (finalizeScores liveTwo liveTwo).R_pos epsFloat = 1 ∧
    (finalizeScores liveTwo liveTwo).similarity_pos ≠
      normalize_dtw (finalizeScores liveTwo liveTwo).pos_dtw
        (finalizeScores liveTwo liveTwo).L_pos
        (finalizeScores liveTwo liveTwo).R_pos epsFloat := by
  have hpos : (finalizeScores liveTwo liveTwo).similarity_pos = 0 := dtwV_self _
  have hdist : (finalizeScores liveTwo liveTwo).pos_dtw = 0 := dtwV_self _
  have hL : (finalizeScores liveTwo liveTwo).L_pos = 2 := by
    show (1 / 2 : ℝ) * (((2 : ℕ) : ℝ) + ((2 : ℕ) : ℝ)) = 2
    norm_num
  have hR : (finalizeScores liveTwo liveTwo).R_pos = 4 := by
    show max (0 : ℝ) 4 - min (0 : ℝ) 4 = 4
    rw [max_eq_right (by norm_num : (0 : ℝ) ≤ 4), min_eq_left (by norm_num : (0 : ℝ) ≤ 4)]
    norm_num
  have hnd : normalize_dtw (finalizeScores liveTwo liveTwo).pos_dtw
      (finalizeScores liveTwo liveTwo).L_pos
      (finalizeScores liveTwo liveTwo).R_pos epsFloat = 1 := by
    rw [hdist]; simp [normalize_dtw]
  refine ⟨fun X Y => ⟨rfl, rfl⟩, hpos, hL, hR, hnd, ?_⟩
  rw [hpos, hnd]
  norm_num

/-! ### C8: translation invariance of the pose features -/

/-- Translate a landmark point by a constant `(dx, dy)` (z unchanged). -/
noncomputable def shiftPt (dx dy : ℝ) (p : Pt) : Pt := ⟨p.x + dx, p.y + dy, p.z⟩

/-- Translate every pose point of a keypoint record by `(dx, dy)`. -/
noncomputable def shiftKp (dx dy : ℝ) (kp : Kp) : Kp :=
  ⟨kp.hands, kp.pose.map (shiftPt dx dy)⟩

/-- The per-row offset that `shiftPt` induces on `ptVec`. -/
noncomputable def offVec (useZ : Bool) (dx dy : ℝ) : Vec :=
  if useZ then [dx, dy, 0] else [dx, dy]

theorem ptVec_shift (useZ : Bool) (dx dy : ℝ) (p : Pt) :
    ptVec useZ (shiftPt dx dy p) = vadd (ptVec useZ p) (offVec useZ dx dy) := by
  cases useZ <;> simp [ptVec, offVec, shiftPt, vadd]

theorem length_ptVec (useZ : Bool) (p : Pt) :
    (ptVec useZ p).length = (offVec useZ dx dy).length := by
  cases useZ <;> simp [ptVec, offVec]

theorem vsub_vadd_vadd (w : Vec) :
    ∀ u v : Vec, u.length ≤ w.length → v.length ≤ w.length →
      vsub (vadd u w) (vadd v w) = vsub u v := by
  induction w with
  | nil =>
    intro u v hu hv
    simp only [List.length_nil, Nat.le_zero, List.length_eq_zero] at hu hv
    subst hu; subst hv; rfl
  | cons c w2 ih =>
    intro u v hu hv
    match u, v with
    | [], _ => simp [vadd, vsub]
    | _ :: _, [] => simp [vadd, vsub]
    | a :: u2, b :: v2 =>
      simp only [vadd, vsub, List.zipWith] at ih ⊢
      have h1 : u2.length ≤ w2.length := by simpa using hu
      have h2 : v2.length ≤ w2.length := by simpa using hv
      rw [ih u2 v2 h1 h2]
      congr 1
      ring

theorem half_vadd_shift :
    ∀ A B off : Vec,
      (vadd (vadd A off) (vadd B off)).map (fun c => c / 2) =
        vadd ((vadd A B).map (fun c => c / 2)) off := by
  intro A
  induction A with
  | nil => intro B off; simp [vadd]
  | cons a A2 ih =>
    intro B off
    match B, off with
    | [], _ => cases off <;> simp [vadd]
    | _ :: _, [] => simp [vadd]
    | b :: B2, c :: off2 =>
      simp only [vadd, List.zipWith, List.map] at ih ⊢
      rw [ih B2 off2]
      congr 1
      ring

theorem getD_eq_getElem (l : List α) (d : α) (i : ℕ) (h : i < l.length) :
    l.getD i d = l[i] := by
  induction l generalizing i with
  | nil => simp at h
  | cons a t ih =>
    cases i with
    | zero => rfl
    | succ k => simpa using ih k (by simpa using h)

theorem getD_map (f : α → β) (l : List α) (d : β) (i : ℕ) (h : i < l.length) :
    (l.map f).getD i d = f l[i] := by
  induction l generalizing i with
  | nil => simp at h
  | cons a t ih =>
    cases i with
    | zero => rfl
    | succ k => simpa using ih k (by simpa using h)

theorem poseBody_shift (pts : List Vec) (off : Vec)
    (hq : ∀ q ∈ pts, q.length = off.length) (hlen : 24 < pts.length) :
    poseBody (pts.map (fun v => vadd v off)) = poseBody pts := by
  have h23 : 23 < pts.length := by omega
  have h11 : 11 < pts.length := by omega
  have h12 : 12 < pts.length := by omega
  have hg : ∀ (i : ℕ) (h : i < pts.length), pts[i].length = off.length :=
    fun i h => hq _ (List.getElem_mem h)
  have hmid : (List.map (fun c => c / 2) (vadd pts[23] pts[24])).length ≤ off.length := by
    simp only [List.length_map, vadd, List.length_zipWith, hg 23 h23, hg 24 hlen]
    simp
  simp only [poseBody]
  rw [getD_map _ _ _ 23 h23, getD_map _ _ _ 24 hlen,
      getD_map _ _ _ 11 h11, getD_map _ _ _ 12 h12,
      getD_eq_getElem pts [] 23 h23, getD_eq_getElem pts [] 24 hlen,
      getD_eq_getElem pts [] 11 h11, getD_eq_getElem pts [] 12 h12]
  rw [half_vadd_shift]
  rw [vsub_vadd_vadd off _ _ (le_of_eq (hg 11 h11)) (le_of_eq (hg 12 h12))]
  rw [List.map_map]
  congr 1
  apply List.map_congr_left
  intro q hqmem
  simp only [Function.comp]
  rw [vsub_vadd_vadd off q _ (le_of_eq (hq q hqmem)) hmid]

theorem pose_features_shift (kp : Kp) (useZ : Bool) (dx dy : ℝ) :
    pose_features (shiftKp dx dy kp) useZ = pose_features kp useZ := by
  unfold pose_features shiftKp
  simp only [List.length_map]
  by_cases h : kp.pose.length < 33
  · simp [h]
  · rw [if_neg h, if_neg h]
    have h24 : 24 < (kp.pose.map (ptVec useZ)).length := by
      simp only [List.length_map]; omega
    have hmap : (kp.pose.map (shiftPt dx dy)).map (ptVec useZ)
        = (kp.pose.map (ptVec useZ)).map (fun v => vadd v (offVec useZ dx dy)) := by
      rw [List.map_map, List.map_map]
      apply List.map_congr_left
      intro p _
      simp [Function.comp, ptVec_shift]
    have hlen : ∀ q ∈ kp.pose.map (ptVec useZ), q.length = (offVec useZ dx dy).length := by
      intro q hq
      obtain ⟨p, _, rfl⟩ := List.mem_map.mp hq
      exact length_ptVec useZ p
    rw [hmap, poseBody_shift _ _ hlen h24]

theorem filterMap_congr_mem {α β : Type _} {f g : α → Option β} (l : List α)
    (h : ∀ a ∈ l, f a = g a) : l.filterMap f = l.filterMap g := by
  induction l with
  | nil => rfl
  | cons a t ih =>
    simp only [List.filterMap_cons, h a (by simp)]
    have ht := ih (fun b hb => h b (by simp [hb]))
    cases g a <;> simp [ht]

/-- The per-session feature buffer built by successive pushes of pose frames:
exactly the frames on which the extractor succeeded, in order (the `buf` of
`EndOnlyDTW` for a pose-model session). -/
noncomputable def live_buffer (useZ : Bool) (frames : List Kp) : List Vec :=
  frames.filterMap (fun f => pose_features f useZ)

/-- C8: pose feature extraction is translation-invariant — shifting every pose
point of a frame by a constant `(dx, dy)` leaves `_pose_features` unchanged
(including the drop behaviour for frames with fewer than 33 points), so a live
sequence that is the reference translated by any constant per frame yields a
feature matrix `X` identical to `Y` and a positional DTW distance of 0. -/
theorem C8_pose_translation_invariant (useZ : Bool) (dx dy : ℝ) (frames : List Kp) :
    (frames.map (fun f => pose_features (shiftKp dx dy f) useZ) =
      frames.map (fun f => pose_features f useZ)) ∧
    live_buffer useZ (frames.map (shiftKp dx dy)) = live_buffer useZ frames ∧
    dtwV (live_buffer useZ (frames.map (shiftKp dx dy))) (live_buffer useZ frames) = 0 := by
  have h2 : live_buffer useZ (frames.map (shiftKp dx dy)) = live_buffer useZ frames := by
    unfold live_buffer
    rw [List.filterMap_map]
    exact filterMap_congr_mem frames
      (fun f _ => by simp [Function.comp, pose_features_shift])
  refine ⟨?_, h2, ?_⟩
  · exact List.map_congr_left (fun f _ => pose_features_shift f useZ dx dy)
  · rw [h2]; exact dtwV_self _

/-! ### C7: totality of `extract_features` -/

/-- A keypoint record with no detected hand (MediaPipe found nothing). -/
def kpNoHand : Kp := ⟨[], []⟩

theorem select_finger_features_length (arr : Vec) :
    (select_finger_features arr).length = 8 := rfl

/-- C7: the claim states `extract_features` is total for all three models and
returns `drop` when required landmarks are absent.  For `"hands"` and
`"pose"` it is total, and for `"finger"` with a detected hand it produces the
8-dim selection; but for `"finger"` with no detected hand (or fewer than 21
landmarks) the source raises `TypeError` (`_select_finger_features(None)`
subscripts `None`) instead of returning `drop`. -/
theorem C7_finger_no_hand_raises :
    extract_features "finger" kpNoHand false =
      .error "TypeError: NoneType object is not subscriptable" ∧
    (∀ (kp : Kp) (useZ : Bool),
        extract_features "hands" kp useZ = .ok (hands_features kp) ∧
        extract_features "pose" kp useZ = .ok (pose_features kp useZ)) ∧
    (∀ (kp : Kp) (useZ : Bool),
        extract_features "finger" kp useZ =
          .error "TypeError: NoneType object is not subscriptable" ∨
        ∃ v : Vec, extract_features "finger" kp useZ = .ok (some v) ∧ v.length = 8) := by
  refine ⟨rfl, fun kp useZ => ⟨rfl, rfl⟩, fun kp useZ => ?_⟩
  unfold extract_features
  norm_num
  cases h : hands_features kp with
  | none => left; rfl
  | some arr => right; exact ⟨select_finger_features arr, rfl, rfl⟩

/-! ### C6: the template library; C5: Sakoe-Chiba radius resolution -/

/-- A numpy array as stored in a template `.npz` file: its shape together with
its rows (the row list is only meaningful for 2-D arrays; validation looks at
the shape alone). -/
structure NpArray where
  shape : List ℕ
  rows : List Vec

/-- `X.ndim`. -/
def NpArray.ndim (a : NpArray) : ℕ := a.shape.length

/-- `len(X)` = `X.shape[0]`. -/
def NpArray.len0 (a : NpArray) : ℕ := a.shape.getD 0 0

/-- `X.shape[1]` (the feature dimensionality of a 2-D template). -/
def NpArray.cols (a : NpArray) : ℕ := a.shape.getD 1 0

/-- The failures of `TemplateLibrary.load`: `FileNotFoundError` when no
candidate file exists, `ValueError` when the loaded array is not 2-D. -/
inductive LoadErr where
  | missing
  | malformed
deriving DecidableEq

/-- `TemplateLibrary.load` (utils_dtw.py lines 61-83): the candidate locations
(primary, then the cwd fallback) are modelled by `fs test_key model`, the list
of arrays at locations that exist, in probe order.  The source returns the
first existing file's array after checking only `X.ndim == 2`; a non-2-D
array at the first existing location raises, and if no location exists it
raises `FileNotFoundError`. -/
def TemplateLibrary.load (fs : String → String → List NpArray)
    (test_name model : String) : Except LoadErr NpArray :=
  match fs (normalize_test_name test_name) model with
  | [] => .error .missing
  | X :: _ => if X.ndim ≠ 2 then .error .malformed else .ok X

/-- The `sakoe_radius` constructor argument of `EndOnlyDTW`:
`"auto"`, an `int`, or `None`. -/
inductive SakoeArg where
  | auto
  | int (r : ℤ)
  | noBand
deriving DecidableEq

/-- The radius resolution of `EndOnlyDTW.__init__` (utils_dtw.py lines
267-272): `"auto"` → `max(1, int(0.10 * len(X_ref)))` (with `1` for the
length when the template failed to load), an integer `r` → `max(1, r)`,
`None` → no band.  `int(0.10 * n)` is modelled exactly as `⌊n / 10⌋`. -/
def EndOnlyDTW.resolve_sakoe (arg : SakoeArg) (xRef : Option NpArray) : Option ℤ :=
  match arg with
  | .auto =>
    some (max 1 (((match xRef with
      | some y => (y.len0 : ℤ)
      | none => 1) : ℤ) / 10))
  | .int r => some (max 1 r)
  | .noBand => none

/-- A syntactically 2-D template whose `T = 1` and `D = 3` violate every
dimension requirement of the claim. -/
def badTemplate : NpArray := ⟨[1, 3], [[0, 0, 0]]⟩

/-- A file system whose first probed location holds `badTemplate`. -/
def fsBad : String → String → List NpArray := fun _ _ => [badTemplate]

/-- A 3-D (malformed) template and its file system. -/
def badTemplate3 : NpArray := ⟨[1, 2, 3], []⟩

/-- A file system whose first probed location holds `badTemplate3`. -/
def fsBad3 : String → String → List NpArray := fun _ _ => [badTemplate3]

/-- C6 counterexample: the claim states `load` returns `X` only when
`X.ndim == 2`, `T ≥ 2` and `D` matches the model (42 for hands); but `load`
returns the `(1, 3)` template for model `"hands"` even though `T = 1 < 2` and
`D = 3 ≠ 42` — only the `ndim` check exists in the source. -/
theorem C6_counterexample :
    TemplateLibrary.load fsBad "finger-tapping" "hands" = .ok badTemplate ∧
    badTemplate.len0 = 1 ∧ ¬ 2 ≤ badTemplate.len0 ∧ badTemplate.cols ≠ 42 := by
  refine ⟨rfl, rfl, by decide, by decide⟩

/-- C6 (amended): `TemplateLibrary.load` returns the first existing candidate
array subject only to `X.ndim == 2`; a non-2-D first candidate fails with
`TemplateMalformed` (`ValueError`) and an absent file fails with
`TemplateMissing` (`FileNotFoundError`); neither `T ≥ 2` nor the model
dimensionality of `D` is validated. -/
theorem C6_load_checks_only_ndim (fs : String → String → List NpArray)
    (t m : String) :
    (∀ X : NpArray, TemplateLibrary.load fs t m = .ok X →
        X.ndim = 2 ∧ (fs (normalize_test_name t) m).head? = some X) ∧
    (TemplateLibrary.load fs t m = .error .missing ↔ fs (normalize_test_name t) m = []) ∧
    (∀ (X : NpArray) (rest : List NpArray), fs (normalize_test_name t) m = X :: rest →
        X.ndim ≠ 2 → TemplateLibrary.load fs t m = .error .malformed) := by
  unfold TemplateLibrary.load
  refine ⟨?_, ?_, ?_⟩
  · intro X h
    cases hfs : fs (normalize_test_name t) m with
    | nil => rw [hfs] at h; exact absurd h (by simp)
    | cons Y rest =>
      rw [hfs] at h
      dsimp only at h
      by_cases hn : Y.ndim ≠ 2
      · rw [if_pos hn] at h; exact absurd h (by simp)
      · rw [if_neg hn] at h
        push_neg at hn
        cases h
        exact ⟨hn, rfl⟩
  · constructor
    · intro h
      cases hfs : fs (normalize_test_name t) m with
      | nil => rfl
      | cons Y rest =>
        rw [hfs] at h
        dsimp only at h
        by_cases hn : Y.ndim ≠ 2
        · rw [if_pos hn] at h; exact absurd h (by simp)
        · rw [if_neg hn] at h; exact absurd h (by simp)
    · intro h; rw [h]
  · intro X rest hfs hn
    rw [hfs]
    dsimp only
    rw [if_pos hn]

/-- C6 witness: the amended statement applied at the two concrete file
systems above. -/
theorem C6_load_checks_only_ndim_witness :
    (badTemplate.ndim = 2 ∧
      (fsBad (normalize_test_name "finger-tapping") "hands").head? = some badTemplate) ∧
    TemplateLibrary.load fsBad3 "finger-tapping" "hands" = .error .malformed :=
  ⟨(C6_load_checks_only_ndim fsBad "finger-tapping" "hands").1 badTemplate rfl,
   (C6_load_checks_only_ndim fsBad3 "finger-tapping" "hands").2.2 badTemplate3 [] rfl
     (by decide)⟩

/-- C5 counterexample: the claim states an integer radius of 0 runs DTW with
band radius 0 (hence `BandInfeasible` whenever `|A| ≠ |B|`); but the
constructor clamps integer radii with `max(1, r)`, so the configured 0 becomes
an effective radius of 1, not 0. -/
theorem C5_counterexample :
    EndOnlyDTW.resolve_sakoe (.int 0) (some ⟨[5, 1], []⟩) = some 1 ∧
    (some (1 : ℤ) : Option ℤ) ≠ some 0 := by
  refine ⟨by decide, by decide⟩

/-- C5 (amended): an integer Sakoe-Chiba radius `r` resolves to the effective
radius `max(1, r)` — so a configured 0 is clamped to 1 and a zero-width band
is impossible from an integer configuration — while `"auto"` resolves to
`max(1, ⌊0.10·|B|⌋)` where `|B|` is the reference length (1 when the template
failed to load). -/
theorem C5_radius_resolution :
    (∀ (r : ℤ) (x : Option NpArray) (s : ℤ),
        EndOnlyDTW.resolve_sakoe (.int r) x = some s → s = max 1 r ∧ 1 ≤ s) ∧
    (∀ y : NpArray,
        EndOnlyDTW.resolve_sakoe .auto (some y) = some (max 1 ((y.len0 / 10 : ℕ) : ℤ))) ∧
    EndOnlyDTW.resolve_sakoe .auto none = some 1 ∧
    (∀ x : Option NpArray, EndOnlyDTW.resolve_sakoe .noBand x = none) := by
  refine ⟨?_, ?_, by decide, fun x => rfl⟩
  · intro r x s h
    simp only [EndOnlyDTW.resolve_sakoe, Option.some.injEq] at h
    exact ⟨h.symm, h ▸ le_max_left 1 r⟩
  · intro y
    show some (max 1 ((y.len0 : ℤ) / 10)) = some (max 1 ((y.len0 / 10 : ℕ) : ℤ))
    rw [Int.natCast_div]
    norm_num

/-- C5 witness: the amended statement applied at the configured radius 0 and
at a 25-row reference. -/
theorem C5_radius_resolution_witness :
    ((1 : ℤ) = max 1 0 ∧ 1 ≤ (1 : ℤ)) ∧
    EndOnlyDTW.resolve_sakoe .auto (some ⟨[25, 3], []⟩) = some (max 1 ((25 / 10 : ℕ) : ℤ)) :=
  ⟨C5_radius_resolution.1 0 none 1 (by decide),
   C5_radius_resolution.2.1 ⟨[25, 3], []⟩⟩

/-! ### C10: the artifact folder chosen by `save_dtw_npz` -/

/-- C10: `save_dtw_npz` never creates an artifact folder under a non-canonical
test name — the folder component is always one of the three allowed tests, and
for a name whose normalized form is not allowed it is forcibly remapped by raw
substring: `"sit"` → stand-and-sit, else `"finger"` → finger-tapping, else
fist-open-close. -/
theorem C10_save_canonical_name (t : String) :
    save_dtw_npz_canonical t ∈ ALLOWED_TESTS ∧
    (normalize_test_name t ∉ ALLOWED_TESTS →
      save_dtw_npz_canonical t =
        if pyContains t "sit" then "stand-and-sit"
        else if pyContains t "finger" then "finger-tapping"
        else "fist-open-close") := by
  unfold save_dtw_npz_canonical
  by_cases h : normalize_test_name t ∈ ALLOWED_TESTS
  · refine ⟨by rw [if_pos h]; exact h, fun hn => absurd h hn⟩
  · rw [if_neg h]
    refine ⟨?_, fun _ => rfl⟩
    by_cases h1 : pyContains t "sit"
    · rw [if_pos h1]; decide
    · rw [if_neg h1]
      by_cases h2 : pyContains t "finger"
      · rw [if_pos h2]; decide
      · rw [if_neg h2]; decide

/-- C10 witness: applied at the unknown test name `"jump"`. -/
theorem C10_save_canonical_name_witness :
    save_dtw_npz_canonical "jump" ∈ ALLOWED_TESTS ∧
    save_dtw_npz_canonical "jump" =
      if pyContains "jump" "sit" then "stand-and-sit"
      else if pyContains "jump" "finger" then "finger-tapping"
      else "fist-open-close" :=
  ⟨(C10_save_canonical_name "jump").1,
   (C10_save_canonical_name "jump").2 (by decide)⟩

/-! ### The per-connection session machine (`websockets.py`,
`_camera_ws_handler`) -/

/-- The keys of the dict returned by `EndOnlyDTW.finalize_and_save` on success
(utils_dtw.py lines 417-423). -/
def finalizeOkPayloadKeys : List String :=
  ["ok", "similarity_overall", "similarity_pos", "similarity_amp", "similarity_spd"]

/-- The keys the handler reads from `dtw_payload` while building the
`TestResult` row (websockets.py lines 271-291). -/
def persistReadKeys : List String :=
  ["similarity_overall", "similarity_pos", "similarity_amp", "similarity_spd",
   "pos_dtw", "amp_dtw", "spd_dtw", "avg_step_pos",
   "R_pos", "R_amp", "R_spd", "L_pos", "L_amp", "L_spd",
   "pos_local_costs", "pos_aligned_ref_by_live",
   "amp_local_costs", "amp_aligned_ref_by_live",
   "spd_local_costs", "spd_aligned_ref_by_live"]

/-- Whether every key the persist step reads is present in the success
payload; a missing key raises `KeyError`, caught by the handler's
`except` as a `sql_save` error. -/
def persistKeysPresent : Bool :=
  persistReadKeys.all (fun k => finalizeOkPayloadKeys.contains k)

/-- The state of one `EndOnlyDTW` instance (utils_dtw.py lines 250-281):
`xRef = none` models `X_ref is None` together with the recorded
`init_error`. -/
structure EndOnlyDTW where
  test_name : String
  model : String
  xRef : Option NpArray
  sakoe_radius : Option ℤ
  buf : List Vec
  pushed_frames : ℕ
  pushed_feats : ℕ
  pushed_drops : ℕ

/-- `EndOnlyDTW.__init__` (utils_dtw.py lines 251-272) against the candidate
file systems `fs`; `websockets.py` always constructs it with
`sakoe_radius = None`. -/
def EndOnlyDTW.init (fs : String → String → List NpArray)
    (test_name model : String) (sakoe : SakoeArg) : EndOnlyDTW :=
  let tn := normalize_test_name test_name
  let xRef := (TemplateLibrary.load fs tn model).toOption
  { test_name := tn, model := model, xRef := xRef,
    sakoe_radius := EndOnlyDTW.resolve_sakoe sakoe xRef,
    buf := [], pushed_frames := 0, pushed_feats := 0, pushed_drops := 0 }

/-- `EndOnlyDTW.push` (utils_dtw.py lines 274-281): `_pushed_frames` is
incremented first; then `extract_features` either yields a feature (append to
`buf`, count a build), yields `None` (count a drop), or raises — the `.error`
result carries the partially mutated state left behind by the escaped
exception. -/
noncomputable def EndOnlyDTW.push (e : EndOnlyDTW) (kp : Kp) :
    Except EndOnlyDTW EndOnlyDTW :=
  let e1 := { e with pushed_frames := e.pushed_frames + 1 }
  match extract_features e.model kp false with
  | .error _ => .error e1
  | .ok none => .ok { e1 with pushed_drops := e1.pushed_drops + 1 }
  | .ok (some f) =>
    .ok { e1 with buf := e1.buf ++ [f], pushed_feats := e1.pushed_feats + 1 }

/-- The failure cases of `EndOnlyDTW.finalize_and_save`
(utils_dtw.py lines 284-306). -/
inductive FinalizeFail where
  | initError
  | noFeatures
  | dimMismatch
deriving DecidableEq

/-- The guard block of `finalize_and_save`: `init_error` first (template load
failed, i.e. `xRef = none`), then the empty feature buffer, then the
dimension check of the stacked live matrix against the reference
(`X.shape[1] != Y.shape[1]`). `none` = the scoring and save proceed. -/
def EndOnlyDTW.finalizeOutcome (e : EndOnlyDTW) : Option FinalizeFail :=
  match e.xRef with
  | none => some .initError
  | some y =>
    match e.buf with
    | [] => some .noFeatures
    | v :: _ => if v.length ≠ y.cols then some .dimMismatch else none

/-- Client → server messages (`data["type"]` dispatch of the handler), with
the environment's nondeterminism carried in the message: `ok` on `init` is
whether `MPExtractor` construction succeeds, `decodeOk` on `frame` whether the
base64/image decode succeeds, `mp4Ok`/`dbOk` on `end` whether the MP4 writer
and the database commit succeed. -/
inductive Msg where
  | init (ok : Bool) (testName model : String)
  | frame (decodeOk : Bool) (kp : Kp)
  | pause (paused : Bool)
  | msgEnd (mp4Ok dbOk : Bool)
  | unknown

/-- Server → client events, by `type` (and `where` for errors). -/
inductive Ev where
  | statusInit
  | statusPause (paused : Bool)
  | keypoints
  | errInit
  | errFrame
  | errEnd
  | errSaveMp4
  | errSqlSave
  | errUnknown
  | dtwErr (f : FinalizeFail)
  | complete
deriving DecidableEq

/-- The handler's per-connection state: the frame buffer length, the
`started` flag, the `EndOnlyDTW` engine, the canonicalized test name, the
model, plus observers for persistence (`rows` = TestResult rows committed,
`mp4s` = MP4 files written). -/
structure WsState where
  frames : ℕ
  started : Bool
  engine : Option EndOnlyDTW
  testName : String
  model : String
  rows : ℕ
  mp4s : ℕ

/-- The state at `websocket.accept()` (websockets.py lines 146-157). -/
def ws0 : WsState :=
  { frames := 0, started := false, engine := none, testName := "",
    model := "hands", rows := 0, mp4s := 0 }

/-- One loop iteration of `_camera_ws_handler` (websockets.py lines 160-319):
the next state and the events sent, given one inbound message. -/
noncomputable def step (fs : String → String → List NpArray) (s : WsState) :
    Msg → WsState × List Ev
  | .init ok tn mdl =>
    if ok then
      let tnc := normalize_test_name tn
      let e := EndOnlyDTW.init fs (if tnc = "" then "unknown" else tnc) mdl .noBand
      ({ s with started := true, engine := some e, testName := tnc, model := mdl },
        (if e.xRef.isNone then [Ev.errInit] else []) ++ [Ev.statusInit])
    else ({ s with started := false }, [Ev.errInit])
  | .frame decodeOk kp =>
    if ¬s.started then (s, [Ev.errFrame])
    else if ¬decodeOk then (s, [Ev.errFrame])
    else
      let s1 := { s with frames := s.frames + 1 }
      if s.model = "hands" ∨ s.model = "pose" then
        match s.engine with
        | some e =>
          match e.push kp with
          | .ok e2 => ({ s1 with engine := some e2 }, [Ev.keypoints])
          | .error e2 => ({ s1 with engine := some e2 }, [Ev.errFrame])
        | none => (s1, [Ev.keypoints])
      else (s1, [Ev.keypoints])
  | .pause b => (s, [Ev.statusPause b])
  | .msgEnd mp4Ok dbOk =>
    if ¬s.started then (s, [Ev.errEnd])
    else if s.frames = 0 then (s, [Ev.errEnd])
    else
      match s.engine with
      | none => (s, [Ev.errEnd])
      | some e =>
        match e.finalizeOutcome with
        | some f => (s, [Ev.dtwErr f])
        | none =>
          if ¬mp4Ok then ({ s with frames := 0 }, [Ev.errSaveMp4])
          else
            let s2 := { s with frames := 0, mp4s := s.mp4s + 1 }
            if persistKeysPresent then
              if dbOk then ({ s2 with rows := s2.rows + 1 }, [Ev.complete])
              else (s2, [Ev.errSqlSave])
            else (s2, [Ev.errSqlSave])
  | .unknown => (s, [Ev.errUnknown])

/-- Run the handler loop from a state over a message list, collecting all
emitted events in order. -/
noncomputable def runFrom (fs : String → String → List NpArray) :
    WsState → List Msg → WsState × List Ev
  | s, [] => (s, [])
  | s, m :: rest =>
    let p := step fs s m
    let q := runFrom fs p.1 rest
    (q.1, p.2 ++ q.2)

/-- Run the handler from the fresh connection state. -/
noncomputable def runWs (fs : String → String → List NpArray)
    (msgs : List Msg) : WsState × List Ev :=
  runFrom fs ws0 msgs

theorem persistKeysPresent_false : persistKeysPresent = false := by decide

theorem extract_hands (kp : Kp) (z : Bool) :
    extract_features "hands" kp z = .ok (hands_features kp) := rfl

theorem extract_pose (kp : Kp) (z : Bool) :
    extract_features "pose" kp z = .ok (pose_features kp z) := rfl

theorem push_counts (e : EndOnlyDTW) (kp : Kp)
    (h : e.model = "hands" ∨ e.model = "pose") :
    ∃ e2, e.push kp = .ok e2 ∧ e2.model = e.model ∧
      e2.pushed_frames = e.pushed_frames + 1 ∧
      ((e2.pushed_feats = e.pushed_feats + 1 ∧ e2.pushed_drops = e.pushed_drops ∧
          e2.buf.length = e.buf.length + 1) ∨
        (e2.pushed_feats = e.pushed_feats ∧ e2.pushed_drops = e.pushed_drops + 1 ∧
          e2.buf = e.buf)) := by
  unfold EndOnlyDTW.push
  rcases h with h | h <;> rw [h]
  · rw [extract_hands]
    cases hf : hands_features kp with
    | none => exact ⟨_, rfl, rfl, rfl, Or.inr ⟨rfl, rfl, rfl⟩⟩
    | some f => exact ⟨_, rfl, rfl, rfl, Or.inl ⟨rfl, rfl, by simp⟩⟩
  · rw [extract_pose]
    cases hf : pose_features kp false with
    | none => exact ⟨_, rfl, rfl, rfl, Or.inr ⟨rfl, rfl, rfl⟩⟩
    | some f => exact ⟨_, rfl, rfl, rfl, Or.inl ⟨rfl, rfl, by simp⟩⟩

/-- The session-counter invariant of the spec: the engine's model agrees with
the session model, `features_built + feature_drops = frames_seen`, and the
feature buffer length equals `features_built`. -/
def EngInv (s : WsState) : Prop :=
  ∀ e, s.engine = some e →
    e.model = s.model ∧ e.pushed_feats + e.pushed_drops = e.pushed_frames ∧
      e.buf.length = e.pushed_feats

theorem engInv_ws0 : EngInv ws0 := by
  intro e he
  simp [ws0] at he

theorem step_engInv (fs : String → String → List NpArray) (s : WsState) (m : Msg)
    (h : EngInv s) : EngInv (step fs s m).1 := by
  cases m with
  | init ok tn mdl =>
    simp only [step]
    split
    · intro e he
      simp only [Option.some.injEq] at he
      subst he
      exact ⟨rfl, rfl, rfl⟩
    · exact h
  | frame decodeOk kp =>
    simp only [step]
    split
    · exact h
    · split
      · exact h
      · split
        · split
          · rename_i e0 heq
            obtain ⟨e2, hp, hm2, hfr, hcase⟩ := push_counts e0 kp ((h e0 heq).1 ▸ ‹_›)
            split
            · rename_i e3 heq3
              rw [hp] at heq3
              cases heq3
              intro e he
              simp only [Option.some.injEq] at he
              subst he
              have hinv := h e0 heq
              refine ⟨by rw [hm2]; exact hinv.1, ?_, ?_⟩
              · rcases hcase with ⟨h1, h2, h3⟩ | ⟨h1, h2, h3⟩ <;> omega
              · rcases hcase with ⟨h1, h2, h3⟩ | ⟨h1, h2, h3⟩
                · omega
                · rw [h1, h3]; exact hinv.2.2
            · rename_i e3 heq3
              rw [hp] at heq3
              cases heq3
          · exact h
        · exact h
  | pause b => exact h
  | msgEnd mp4Ok dbOk =>
    simp only [step]
    split
    · exact h
    · split
      · exact h
      · split
        · exact h
        · split
          · exact h
          · split
            · exact h
            · rw [persistKeysPresent_false]
              simp only [Bool.false_eq_true, if_false]
              exact h
  | unknown => exact h

theorem runFrom_engInv (fs : String → String → List NpArray) (msgs : List Msg) :
    ∀ s : WsState, EngInv s → EngInv (runFrom fs s msgs).1 := by
  induction msgs with
  | nil => intro s h; exact h
  | cons m rest ih =>
    intro s h
    exact ih _ (step_engInv fs s m h)

/-- The empty candidate file system (no template file exists anywhere). -/
def fsEmpty : String → String → List NpArray := fun _ _ => []

/-- C9: in every session (any message trace against any template file
system), the engine's counters satisfy
`features_built + feature_drops = frames_seen` and the feature buffer length
equals `features_built` — each completed push increments `frames_seen` and
exactly one of the other two counters.  (Within the handler, pushes happen
only for the `"hands"`/`"pose"` models, for which `extract_features` never
raises; the raising `"finger"` path is unreachable because `MPExtractor`
yields an error record that skips the push.) -/
theorem C9_counter_invariant (fs : String → String → List NpArray)
    (msgs : List Msg) (e : EndOnlyDTW)
    (he : (runWs fs msgs).1.engine = some e) :
    e.pushed_feats + e.pushed_drops = e.pushed_frames ∧
      e.buf.length = e.pushed_feats :=
  ((runFrom_engInv fs msgs ws0 engInv_ws0) e he).2

/-- C9 witness: after an `init` (no template on disk) and one hand-less
frame, the counters read `frames_seen = 1`, `features_built = 0`,
`feature_drops = 1`. -/
theorem C9_counter_invariant_witness :
    (0 : ℕ) + 1 = 1 ∧ ([] : List Vec).length = 0 :=
  C9_counter_invariant fsEmpty
    [Msg.init true "x" "hands", Msg.frame true kpNoHand]
    ⟨"x", "hands", none, none, [], 1, 0, 1⟩ rfl

theorem step_no_complete (fs : String → String → List NpArray) (s : WsState) (m : Msg) :
    Ev.complete ∉ (step fs s m).2 := by
  cases m with
  | init ok tn mdl =>
    simp only [step]
    split
    · split <;> simp
    · simp
  | frame decodeOk kp =>
    simp only [step]
    split
    · simp
    · split
      · simp
      · split
        · split
          · split <;> simp
          · simp
        · simp
  | pause b => simp [step]
  | msgEnd mp4Ok dbOk =>
    simp only [step]
    split
    · simp
    · split
      · simp
      · split
        · simp
        · split
          · simp
          · split
            · simp
            · rw [persistKeysPresent_false]
              simp
  | unknown => simp [step]

theorem runFrom_no_complete (fs : String → String → List NpArray) (msgs : List Msg) :
    ∀ s : WsState, Ev.complete ∉ (runFrom fs s msgs).2 := by
  induction msgs with
  | nil => intro s; simp [runFrom]
  | cons m rest ih =>
    intro s
    simp only [runFrom, List.mem_append]
    push_neg
    exact ⟨step_no_complete fs s m, ih _⟩

/-- C3: in every session (one connection from `accept` to close), the server
emits `complete` at most once, whatever frames and repeated `end` messages the
client sends.  (In the code as written the bound holds vacuously: the persist
step always raises `KeyError` on the missing `pos_dtw` payload key — see C2 —
so `complete` is in fact never emitted; the count is 0 ≤ 1.) -/
theorem C3_complete_at_most_once (fs : String → String → List NpArray)
    (msgs : List Msg) : ((runWs fs msgs).2.count Ev.complete) ≤ 1 := by
  have h0 : ((runWs fs msgs).2.count Ev.complete) = 0 :=
    List.count_eq_zero.mpr (runFrom_no_complete fs msgs ws0)
  omega

/-- C2: the claim states that when finalization succeeds (features exist,
dimensions match, DTW completes, MP4 written) a single `TestResult` row with
all scalars and series is persisted and `complete` is emitted.  In the code,
the handler reads `dtw_payload["pos_dtw"]`, `R_*`, `L_*`, `avg_step_pos` and
the six series keys from a payload that `finalize_and_save` returns with only
`ok` and the four `similarity_*` keys, so the `TestResult` construction raises
`KeyError`, the `except` clause emits `error{where:"sql_save"}`, no row is
written, and `complete` is never sent — even with DTW and MP4 successful. -/
theorem C2_persist_step_fails (fs : String → String → List NpArray)
    (s : WsState) (e : EndOnlyDTW) (dbOk : Bool)
    (hs : s.started = true) (hf : s.frames ≠ 0) (he : s.engine = some e)
    (hok : e.finalizeOutcome = none) :
    (step fs s (.msgEnd true dbOk)).2 = [Ev.errSqlSave] ∧
    (step fs s (.msgEnd true dbOk)).1.rows = s.rows ∧
    Ev.complete ∉ (step fs s (.msgEnd true dbOk)).2 ∧
    "pos_dtw" ∈ persistReadKeys ∧ "pos_dtw" ∉ finalizeOkPayloadKeys := by
  have hkey : persistKeysPresent = false := persistKeysPresent_false
  simp only [step, hs, he, hok, hkey, if_neg hf]
  norm_num
  exact ⟨by decide, by decide⟩

/-- A well-formed `(2, 1)` template on disk. -/
def tmpl21 : NpArray := ⟨[2, 1], [[0], [4]]⟩

/-- A candidate file system holding `tmpl21` at every location. -/
def fsT : String → String → List NpArray := fun _ _ => [tmpl21]

/-- An engine state after one successful 1-D feature push against `tmpl21`:
finalization passes every guard. -/
def engineOk : EndOnlyDTW := ⟨"x", "hands", some tmpl21, none, [[0]], 1, 1, 0⟩

/-- A session state holding `engineOk` with one buffered frame. -/
def stateOk : WsState := ⟨1, true, some engineOk, "x", "hands", 0, 0⟩

/-- C2 witness: the failing persist step at the concrete ready-to-finalize
session state. -/
theorem C2_persist_step_fails_witness :
    (step fsT stateOk (.msgEnd true true)).2 = [Ev.errSqlSave] ∧
    (step fsT stateOk (.msgEnd true true)).1.rows = stateOk.rows ∧
    Ev.complete ∉ (step fsT stateOk (.msgEnd true true)).2 ∧
    "pos_dtw" ∈ persistReadKeys ∧ "pos_dtw" ∉ finalizeOkPayloadKeys :=
  C2_persist_step_fails fsT stateOk engineOk true rfl (by decide) rfl rfl

/-- C4 (amended): when `end` arrives with `features_built = 0`, finalization
is refused and the session stays in its current state accepting further
messages, with no row and no MP4; when at least one frame was received the
refusal is the `dtw_error` (no-features) message, but when the frame set is
empty the handler instead emits `error{where:"end"}` ("No frames received")
without consulting the DTW engine at all. -/
theorem C4_end_without_features (fs : String → String → List NpArray)
    (s : WsState) (e : EndOnlyDTW) (mp4Ok dbOk : Bool)
    (hs : s.started = true) (he : s.engine = some e) (hb : e.buf = [])
    (hx : e.xRef.isSome = true) :
    (s.frames ≠ 0 → step fs s (.msgEnd mp4Ok dbOk) = (s, [Ev.dtwErr .noFeatures])) ∧
    (s.frames = 0 → step fs s (.msgEnd mp4Ok dbOk) = (s, [Ev.errEnd])) := by
  have hfo : e.finalizeOutcome = some .noFeatures := by
    unfold EndOnlyDTW.finalizeOutcome
    cases hxr : e.xRef with
    | none => rw [hxr] at hx; simp at hx
    | some y =>
      dsimp only
      rw [hb]
  constructor
  · intro hf
    simp only [step, hs, he, hfo, if_neg hf]
    norm_num
  · intro hf0
    simp only [step, hs, he, if_pos hf0]
    norm_num

/-- An engine that loaded `tmpl21` but never built a feature. -/
def engineNoFeat : EndOnlyDTW := ⟨"x", "hands", some tmpl21, none, [], 0, 0, 0⟩

/-- A session state holding `engineNoFeat` with one buffered frame. -/
def stateNoFeat : WsState := ⟨1, true, some engineNoFeat, "x", "hands", 0, 0⟩

/-- C4 witness: the no-features `end` at the concrete session state. -/
theorem C4_end_without_features_witness :
    step fsT stateNoFeat (.msgEnd true true) = (stateNoFeat, [Ev.dtwErr .noFeatures]) :=
  (C4_end_without_features fsT stateNoFeat engineNoFeat true true rfl rfl rfl rfl).1
    (by decide)

/-- C4 counterexample: with an empty frame set, the `end` of a freshly
initialized session is answered by `error{where:"end"}`, not by the
`dtw_error{NoFeatures}` the claim asserts (no row, no MP4 either way). -/
theorem C4_empty_frames_counterexample :
    (runWs fsT [Msg.init true "x" "hands", Msg.msgEnd true true]).2 =
      [Ev.statusInit, Ev.errEnd] ∧
    Ev.dtwErr .noFeatures ∉
      (runWs fsT [Msg.init true "x" "hands", Msg.msgEnd true true]).2 ∧
    (runWs fsT [Msg.init true "x" "hands", Msg.msgEnd true true]).1.rows = 0 ∧
    (runWs fsT [Msg.init true "x" "hands", Msg.msgEnd true true]).1.mp4s = 0 := by
  refine ⟨rfl, by decide, rfl, rfl⟩

end SSLPD
